import Mathlib

-- Verification of the lint-fixing script `fix_lint.py`.
-- The script reads a file, applies eleven `re.sub` substitutions in a fixed
-- order, and writes the result back only when it differs from the original.
-- We embed each substitution as a left-to-right, leftmost-match, non-overlapping
-- scanner over `List Char`, mirroring Python's `re.sub` semantics for these
-- particular patterns (none of which needs backtracking, since in every pattern
-- each greedy class is followed by a literal outside that class).

set_option maxRecDepth 8192

-- Python's `\w` over the ASCII range: letters, digits and underscore.
def isWordChar (c : Char) : Bool := c.isAlphanum || c = '_'

-- Python's `\s` over the ASCII range.
def isSpaceChar (c : Char) : Bool :=
  c = ' ' || c = '\t' || c = '\n' || c = '\r' || c = '\x0b' || c = '\x0c'

-- `hasPre lit s` holds when `lit` is an initial segment of `s`.
def hasPre : List Char → List Char → Bool
  | [], _ => true
  | _ :: _, [] => false
  | a :: as, b :: bs => a == b && hasPre as bs

-- One `re.sub` pass.  A matcher receives the character preceding the current
-- position (for `\b` at the start of a pattern) and the remaining text, and
-- returns the replacement together with the number of characters consumed.
-- On a match the scan resumes right after the consumed characters of the
-- original text; otherwise it advances by one character.  The fuel argument
-- only serves termination: `reSub` supplies `s.length`, which is enough since
-- every match consumes at least one character.
def substFuel (m : Option Char → List Char → Option (List Char × Nat)) :
    Nat → Option Char → List Char → List Char
  | 0, _, s => s
  | _ + 1, _, [] => []
  | f + 1, prev, c :: rest =>
    match m prev (c :: rest) with
    | none => c :: substFuel m f (some c) rest
    | some (repl, n) =>
      repl ++ substFuel m f (((c :: rest).take (max n 1)).getLast?)
        ((c :: rest).drop (max n 1))

def reSub (m : Option Char → List Char → Option (List Char × Nat))
    (s : List Char) : List Char :=
  substFuel m s.length none s

-- `hasMatch m prev s` holds when the pattern recognised by `m` matches at some
-- position of `s`; this is the embedded form of "the regex has a match in s".
def hasMatch (m : Option Char → List Char → Option (List Char × Nat)) :
    Option Char → List Char → Bool
  | _, [] => false
  | prev, c :: rest => (m prev (c :: rest)).isSome || hasMatch m (some c) rest

-- Fix 1 (lines 15 and 16 of fix_lint.py): `(\w+)\[KEY\] \|\|` with replacement
-- `\1[RKEY] ??`.  Line 15 has KEY = RKEY = name; line 16 has KEY = value but
-- RKEY = name (the replacement reuses the literal token `name`).  The greedy
-- `\w+` never backtracks because the following literal `[` is not a word
-- character, so the captured group is exactly the maximal word run.
def bracketMatcher (key rkey : List Char) (_prev : Option Char) (s : List Char) :
    Option (List Char × Nat) :=
  let w := s.takeWhile isWordChar
  if w.isEmpty then none
  else if hasPre ('[' :: key ++ ("] ||".data)) (s.drop w.length) then
    some (w ++ ('[' :: rkey ++ ("] ??".data)),
      w.length + ('[' :: key ++ ("] ||".data)).length)
  else none

-- Fix 2 (lines 19-24): `!IDENT\b` with replacement `IDENT == null`.  The `\b`
-- holds when the character right after IDENT is absent or not a word
-- character (the character before `\b` is the last letter of IDENT, a word
-- character).
def bangMatcher (ident : List Char) (_prev : Option Char) (s : List Char) :
    Option (List Char × Nat) :=
  if hasPre ('!' :: ident) s then
    match (s.drop (ident.length + 1)).head? with
    | none => some (ident ++ (" == null".data), ident.length + 1)
    | some c =>
      if isWordChar c then none
      else some (ident ++ (" == null".data), ident.length + 1)
  else none

def matchLit (lit s : List Char) : Option (List Char) :=
  if hasPre lit s then some (s.drop lit.length) else none

-- Fix 3 (line 27): `if\s*\(\s*\{\s*\}\s*\)` with replacement `if (false)`.
-- Each greedy `\s*` is followed by a literal non-space character, so no
-- backtracking arises and each run of spaces is the maximal one.
def emptyObjMatcher (_prev : Option Char) (s : List Char) : Option (List Char × Nat) :=
  match matchLit ("if".data) s with
  | none => none
  | some r1 =>
    match matchLit ("(".data) (r1.dropWhile isSpaceChar) with
    | none => none
    | some r2 =>
      match matchLit ("\x7b".data) (r2.dropWhile isSpaceChar) with
      | none => none
      | some r3 =>
        match matchLit ("\x7d".data) (r3.dropWhile isSpaceChar) with
        | none => none
        | some r4 =>
          match matchLit (")".data) (r4.dropWhile isSpaceChar) with
          | none => none
          | some r5 => some (("if (false)".data), s.length - r5.length)

-- Fix 4 (line 30): `console\.log\(` with replacement `console.warn(`.
def consoleMatcher (_prev : Option Char) (s : List Char) : Option (List Char × Nat) :=
  if hasPre ("console.log(".data) s then
    some (("console.warn(".data), ("console.log(".data).length)
  else none

-- Fix 5 (line 33): `\bunused(\w+)\b` with replacement `_\1`.  The leading `\b`
-- needs the preceding character to be absent or not a word character; the
-- trailing `\b` always holds after the maximal word run, and `\w+` needs at
-- least one character after the `unused` stem.
def unusedMatcher (prev : Option Char) (s : List Char) : Option (List Char × Nat) :=
  let boundary := match prev with
    | none => true
    | some c => !isWordChar c
  if boundary && hasPre ("unused".data) s then
    let w := (s.drop (("unused".data).length)).takeWhile isWordChar
    if w.isEmpty then none
    else some ('_' :: w, ("unused".data).length + w.length)
  else none

-- The eleven `re.sub` lines of `fix_file`, in source order.
def fix1 (s : List Char) : List Char := reSub (bracketMatcher ("name".data) ("name".data)) s
def fix2 (s : List Char) : List Char := reSub (bracketMatcher ("value".data) ("name".data)) s
def fixBang (ident : List Char) (s : List Char) : List Char := reSub (bangMatcher ident) s
def fixEmptyObj (s : List Char) : List Char := reSub emptyObjMatcher s
def fixConsole (s : List Char) : List Char := reSub consoleMatcher s
def fixUnused (s : List Char) : List Char := reSub unusedMatcher s

-- The whole substitution pipeline of `fix_file` (lines 15-33): each rule's
-- output feeds the next rule's input.
def fixRules (content : List Char) : List Char :=
  fixUnused (fixConsole (fixEmptyObj
    (fixBang ("options".data)
      (fixBang ("instance".data)
        (fixBang ("jsonData".data)
          (fixBang ("response".data)
            (fixBang ("result".data)
              (fixBang ("text".data)
                (fix2 (fix1 content))))))))))

-- File-system model for the I/O part of the script.  `disk p` is the result
-- of reading path `p` (an `error` covers a missing, unreadable or undecodable
-- file); `writeErr p` is `some e` when opening `p` for writing fails.
structure FS where
  disk : String → Except String (List Char)
  writeErr : String → Option String

def errLine (p e : String) : String := "Error fixing " ++ p ++ ": " ++ e

-- `fix_file` (lines 7-38): read, apply the rules, and write back together
-- with a "Fixed:" report only when the text changed.  Errors propagate to the
-- caller as `Except.error`.
def fix_file (fs : FS) (p : String) : Except String (FS × List String) :=
  match fs.disk p with
  | Except.error e => Except.error e
  | Except.ok content =>
    let fixed := fixRules content
    if fixed = content then Except.ok (fs, [])
    else
      match fs.writeErr p with
      | some e => Except.error e
      | none =>
        Except.ok
          ({ fs with disk := fun q => if q = p then Except.ok fixed else fs.disk q },
            ["Fixed: " ++ p])

-- The `__main__` loop (lines 40-45): each path is processed in order under a
-- per-file try/except, so an error becomes one report line and the loop
-- continues with the file system left as it was.
def mainLoop (fs : FS) : List String → FS × List String
  | [] => (fs, [])
  | p :: rest =>
    match fix_file fs p with
    | Except.ok (fs', msgs) =>
      let r := mainLoop fs' rest
      (r.1, msgs ++ r.2)
    | Except.error e =>
      let r := mainLoop fs rest
      (r.1, errLine p e :: r.2)

-- The lines the script prints for one path (used to compare runs).
def reportOf (fs : FS) (p : String) : List String :=
  match fix_file fs p with
  | Except.ok (_, msgs) => msgs
  | Except.error e => [errLine p e]

-- The generic shape matched by `if\s*\(\s*\{\s*\}\s*\)`.
def emptyObjShape (ws1 ws2 ws3 ws4 : List Char) : List Char :=
  ("if".data) ++ ws1 ++ ("(".data) ++ ws2 ++ ("\x7b".data) ++ ws3 ++ ("\x7d".data)
    ++ ws4 ++ (")".data)

-- No pattern of any of the eleven substitutions matches anywhere in `s`.
def noRuleMatch (s : List Char) : Prop :=
  hasMatch (bracketMatcher ("name".data) ("name".data)) none s = false
  ∧ hasMatch (bracketMatcher ("value".data) ("name".data)) none s = false
  ∧ hasMatch (bangMatcher ("text".data)) none s = false
  ∧ hasMatch (bangMatcher ("result".data)) none s = false
  ∧ hasMatch (bangMatcher ("response".data)) none s = false
  ∧ hasMatch (bangMatcher ("jsonData".data)) none s = false
  ∧ hasMatch (bangMatcher ("instance".data)) none s = false
  ∧ hasMatch (bangMatcher ("options".data)) none s = false
  ∧ hasMatch emptyObjMatcher none s = false
  ∧ hasMatch consoleMatcher none s = false
  ∧ hasMatch unusedMatcher none s = false

-- Sample file systems used by the closed witnesses below.
def fsC : FS :=
  ⟨fun q => if q = "clean.js" then Except.ok ("hello".data) else Except.error "ENOENT",
   fun _ => none⟩

def fsD : FS :=
  ⟨fun q => if q = "clean.js" then Except.ok ("hello".data) else Except.ok [],
   fun _ => none⟩

-- The fuel is irrelevant as soon as it dominates the length of the text.
theorem substFuel_fuel_eq (m : Option Char → List Char → Option (List Char × Nat)) :
    ∀ (f g : Nat) (prev : Option Char) (s : List Char),
      s.length ≤ f → s.length ≤ g → substFuel m f prev s = substFuel m g prev s := by
  intro f
  induction f with
  | zero =>
    intro g prev s hf _
    have hs : s = [] := List.length_eq_zero.mp (Nat.le_zero.mp hf)
    subst hs
    cases g <;> rfl
  | succ f ih =>
    intro g prev s hf hg
    cases s with
    | nil => cases g <;> rfl
    | cons c rest =>
      cases g with
      | zero => simp at hg
      | succ g' =>
        simp only [substFuel]
        have hf' : rest.length ≤ f := by simp only [List.length_cons] at hf; omega
        have hg' : rest.length ≤ g' := by simp only [List.length_cons] at hg; omega
        cases hm : m prev (c :: rest) with
        | none =>
          exact congrArg (c :: ·) (ih g' (some c) rest hf' hg')
        | some r =>
          obtain ⟨repl, n⟩ := r
          have hlen : ((c :: rest).drop (max n 1)).length ≤ rest.length := by
            have h1 : 1 ≤ max n 1 := Nat.le_max_right n 1
            simp only [List.length_drop, List.length_cons]
            omega
          exact congrArg (repl ++ ·)
            (ih g' _ _ (Nat.le_trans hlen hf') (Nat.le_trans hlen hg'))

-- The initial previous-character is irrelevant whenever the matcher ignores it
-- at the first position: all later positions derive their context from the
-- text itself.
theorem substFuel_prev_pt (m : Option Char → List Char → Option (List Char × Nat))
    (f : Nat) (p q : Option Char) (s : List Char) (h : m p s = m q s) :
    substFuel m f p s = substFuel m f q s := by
  cases f with
  | zero => rfl
  | succ f =>
    cases s with
    | nil => rfl
    | cons c rest => simp only [substFuel, h]

-- A position where the matcher fails is copied verbatim and the scan moves on.
theorem reSub_skip (m : Option Char → List Char → Option (List Char × Nat))
    (c : Char) (rest : List Char) (h : m none (c :: rest) = none)
    (hr : ∀ p, m p rest = m none rest) :
    reSub m (c :: rest) = c :: reSub m rest := by
  show substFuel m (c :: rest).length none (c :: rest) = _
  simp only [List.length_cons, substFuel, h]
  exact congrArg (c :: ·) (substFuel_prev_pt m rest.length (some c) none rest (hr _))

theorem dropLenApp : ∀ (u v : List Char), (u ++ v).drop u.length = v := by
  intro u v
  induction u with
  | nil => rfl
  | cons a t ih => simpa using ih

-- A match of length `pre.length` at the head of the text replaces `pre` and
-- the scan continues on the tail `v`.
theorem reSub_leading (m : Option Char → List Char → Option (List Char × Nat))
    (pre repl v : List Char) (hpre : pre ≠ [])
    (h : m none (pre ++ v) = some (repl, pre.length))
    (hv : ∀ p, m p v = m none v) :
    reSub m (pre ++ v) = repl ++ reSub m v := by
  cases pre with
  | nil => exact absurd rfl hpre
  | cons a t =>
    have h' : m none (a :: (t ++ v)) = some (repl, t.length + 1) := by
      simpa using h
    show substFuel m ((a :: t) ++ v).length none ((a :: t) ++ v) = _
    have hlen : ((a :: t) ++ v).length = (t ++ v).length + 1 := by simp
    rw [hlen, List.cons_append]
    simp only [substFuel, List.append_eq, h']
    have hmax : max (t.length + 1) 1 = t.length + 1 :=
      Nat.max_eq_left (Nat.succ_le_succ (Nat.zero_le _))
    rw [hmax]
    have hdrop : (a :: (t ++ v)).drop (t.length + 1) = v := by
      simpa using dropLenApp t v
    rw [hdrop]
    have h1 : substFuel m (t ++ v).length ((a :: (t ++ v)).take (t.length + 1)).getLast? v
        = substFuel m (t ++ v).length none v :=
      substFuel_prev_pt m _ _ _ v (hv _)
    rw [h1]
    have h2 : substFuel m (t ++ v).length none v = substFuel m v.length none v :=
      substFuel_fuel_eq m _ _ none v (by simp) (Nat.le_refl _)
    rw [h2]
    rfl

-- Text in which the pattern never matches is returned unchanged.
theorem substFuel_id_of_noMatch (m : Option Char → List Char → Option (List Char × Nat)) :
    ∀ (f : Nat) (prev : Option Char) (s : List Char),
      hasMatch m prev s = false → substFuel m f prev s = s := by
  intro f
  induction f with
  | zero => intro prev s _; rfl
  | succ f ih =>
    intro prev s hnm
    cases s with
    | nil => rfl
    | cons c rest =>
      simp only [hasMatch, Bool.or_eq_false_iff] at hnm
      have h0 : m prev (c :: rest) = none :=
        Option.not_isSome_iff_eq_none.mp (by simp [hnm.1])
      simp only [substFuel, h0]
      exact congrArg (c :: ·) (ih (some c) rest hnm.2)

theorem reSub_id_of_noMatch (m : Option Char → List Char → Option (List Char × Nat))
    (s : List Char) (h : hasMatch m none s = false) : reSub m s = s :=
  substFuel_id_of_noMatch m s.length none s h

theorem hasPre_app : ∀ (u v : List Char), hasPre u (u ++ v) = true := by
  intro u v
  induction u with
  | nil => rfl
  | cons a t ih => simp [hasPre, ih]

theorem takeWhileApp (p : Char → Bool) :
    ∀ (u v : List Char), (∀ c ∈ u, p c = true) →
      (∀ c, v.head? = some c → p c = false) → (u ++ v).takeWhile p = u := by
  intro u
  induction u with
  | nil =>
    intro v _ hv
    cases v with
    | nil => rfl
    | cons b t => simp [List.takeWhile_cons, hv b rfl]
  | cons a t ih =>
    intro v hu hv
    have ha : p a = true := hu a (by simp)
    simp [List.takeWhile_cons, ha, ih v (fun c hc => hu c (by simp [hc])) hv]

theorem dropWhileApp (p : Char → Bool) :
    ∀ (u v : List Char), (∀ c ∈ u, p c = true) →
      (∀ c, v.head? = some c → p c = false) → (u ++ v).dropWhile p = v := by
  intro u
  induction u with
  | nil =>
    intro v _ hv
    cases v with
    | nil => rfl
    | cons b t => simp [List.dropWhile_cons, hv b rfl]
  | cons a t ih =>
    intro v hu hv
    have ha : p a = true := hu a (by simp)
    simp [List.dropWhile_cons, ha, ih v (fun c hc => hu c (by simp [hc])) hv]

theorem word_beq_false (x a : Char) (hx : isWordChar x = false)
    (ha : isWordChar a = true) : (x == a) = false := by
  cases hb : x == a with
  | false => rfl
  | true =>
    have hxa : x = a := eq_of_beq hb
    subst hxa
    rw [hx] at ha
    exact Bool.noConfusion ha

theorem beq_word_false (x a : Char) (hx : isWordChar x = true)
    (ha : isWordChar a = false) : (x == a) = false := by
  cases hb : x == a with
  | false => rfl
  | true =>
    have hxa : x = a := eq_of_beq hb
    subst hxa
    rw [hx] at ha
    exact Bool.noConfusion ha

theorem matchLit_app (lit v : List Char) : matchLit lit (lit ++ v) = some v := by
  simp [matchLit, hasPre_app, dropLenApp]

-- A maximal word run followed by the literal `[KEY] ||` matches at the head.
theorem bracketMatcher_leading (key rkey w v : List Char) (hw : w ≠ [])
    (hword : ∀ c ∈ w, isWordChar c = true) :
    bracketMatcher key rkey none ((w ++ ('[' :: key ++ ("] ||".data))) ++ v) =
      some (w ++ ('[' :: rkey ++ ("] ??".data)),
        (w ++ ('[' :: key ++ ("] ||".data))).length) := by
  have hassoc : (w ++ ('[' :: key ++ ("] ||".data))) ++ v
      = w ++ (('[' :: key ++ ("] ||".data)) ++ v) := by simp
  rw [hassoc]
  have htake : (w ++ (('[' :: key ++ ("] ||".data)) ++ v)).takeWhile isWordChar = w := by
    refine takeWhileApp _ w _ hword ?_
    intro c hc
    simp only [List.cons_append, List.head?_cons, Option.some.injEq] at hc
    rw [← hc]
    decide
  have hempty : w.isEmpty = false := by
    cases w with
    | nil => exact absurd rfl hw
    | cons a t => rfl
  have hdrop : (w ++ (('[' :: key ++ ("] ||".data)) ++ v)).drop w.length
      = ('[' :: key ++ ("] ||".data)) ++ v := dropLenApp w _
  unfold bracketMatcher
  simp only [htake, hempty, hdrop, hasPre_app, Bool.false_eq_true, if_false, if_true,
    List.length_append]

-- `!IDENT` matches at the head when the next character keeps the trailing
-- word boundary.
theorem bangMatcher_leading (ident v : List Char)
    (hv : ∀ c, v.head? = some c → isWordChar c = false) :
    bangMatcher ident none (('!' :: ident) ++ v) =
      some (ident ++ (" == null".data), ident.length + 1) := by
  unfold bangMatcher
  have h1 : hasPre ('!' :: ident) (('!' :: ident) ++ v) = true := hasPre_app _ _
  have h2 : ((('!' :: ident) ++ v).drop (ident.length + 1)) = v := by
    simpa using dropLenApp ('!' :: ident) v
  rw [h1, h2]
  cases v with
  | nil => rfl
  | cons c t =>
    have hc := hv c rfl
    simp [hc]

theorem consoleMatcher_leading (v : List Char) :
    consoleMatcher none (("console.log(".data) ++ v) =
      some (("console.warn(".data), ("console.log(".data).length) := by
  unfold consoleMatcher
  have h1 : hasPre (("console.log(".data)) ((("console.log(".data)) ++ v) = true :=
    hasPre_app _ _
  rw [h1]
  rfl

-- `unused` followed by a nonempty maximal word run matches at the head.
theorem unusedMatcher_leading (w v : List Char) (hw : w ≠ [])
    (hword : ∀ c ∈ w, isWordChar c = true)
    (hv : ∀ c, v.head? = some c → isWordChar c = false) :
    unusedMatcher none ((("unused".data) ++ w) ++ v) =
      some ('_' :: w, (("unused".data) ++ w).length) := by
  have hassoc : (("unused".data) ++ w) ++ v = ("unused".data) ++ (w ++ v) := by simp
  rw [hassoc]
  unfold unusedMatcher
  have h1 : hasPre ("unused".data) (("unused".data) ++ (w ++ v)) = true := hasPre_app _ _
  have h2 : ((("unused".data) ++ (w ++ v)).drop (("unused".data).length)) = w ++ v :=
    dropLenApp _ _
  have h3 : (w ++ v).takeWhile isWordChar = w := takeWhileApp _ w v hword hv
  have hempty : w.isEmpty = false := by
    cases w with
    | nil => exact absurd rfl hw
    | cons a t => rfl
  simp only [h1, h2, h3, hempty, Bool.true_and, Bool.false_eq_true, if_false, if_true,
    List.length_append]

-- When the text after the stem starts with a non-word character, the matcher
-- ignores the preceding-character context entirely.
theorem unusedMatcher_prev (v : List Char)
    (hv : ∀ c, v.head? = some c → isWordChar c = false) (p : Option Char) :
    unusedMatcher p v = unusedMatcher none v := by
  cases v with
  | nil =>
    unfold unusedMatcher
    simp [hasPre]
  | cons c t =>
    have hc := hv c rfl
    have : hasPre ("unused".data) (c :: t) = false := by
      have : ('u' == c) = false := beq_word_false 'u' c (by decide) hc
      simp [hasPre, this]
    unfold unusedMatcher
    simp [this]

theorem emptyObjMatcher_leading (ws1 ws2 ws3 ws4 v : List Char)
    (h1 : ∀ c ∈ ws1, isSpaceChar c = true) (h2 : ∀ c ∈ ws2, isSpaceChar c = true)
    (h3 : ∀ c ∈ ws3, isSpaceChar c = true) (h4 : ∀ c ∈ ws4, isSpaceChar c = true) :
    emptyObjMatcher none ((emptyObjShape ws1 ws2 ws3 ws4) ++ v) =
      some (("if (false)".data), (emptyObjShape ws1 ws2 ws3 ws4).length) := by
  have hs : (emptyObjShape ws1 ws2 ws3 ws4) ++ v
      = ("if".data) ++ (ws1 ++ (("(".data) ++ (ws2 ++ (("\x7b".data)
          ++ (ws3 ++ (("\x7d".data) ++ (ws4 ++ ((")".data) ++ v)))))))) := by
    simp [emptyObjShape]
  have hp : ('(' : Char) :: [] = ("(".data) := rfl
  have e1 : matchLit ("if".data) (("if".data) ++ (ws1 ++ (("(".data) ++ (ws2 ++ (("\x7b".data)
      ++ (ws3 ++ (("\x7d".data) ++ (ws4 ++ ((")".data) ++ v)))))))))
      = some (ws1 ++ (("(".data) ++ (ws2 ++ (("\x7b".data)
        ++ (ws3 ++ (("\x7d".data) ++ (ws4 ++ ((")".data) ++ v)))))))) := matchLit_app _ _
  have d1 : (ws1 ++ (("(".data) ++ (ws2 ++ (("\x7b".data)
      ++ (ws3 ++ (("\x7d".data) ++ (ws4 ++ ((")".data) ++ v)))))))).dropWhile isSpaceChar
      = ("(".data) ++ (ws2 ++ (("\x7b".data)
        ++ (ws3 ++ (("\x7d".data) ++ (ws4 ++ ((")".data) ++ v)))))) := by
    refine dropWhileApp _ ws1 _ h1 ?_
    intro c hc
    simp only [List.cons_append, List.nil_append, List.head?_cons, Option.some.injEq] at hc
    rw [← hc]
    decide
  have e2 : matchLit ("(".data) (("(".data) ++ (ws2 ++ (("\x7b".data)
      ++ (ws3 ++ (("\x7d".data) ++ (ws4 ++ ((")".data) ++ v)))))))
      = some (ws2 ++ (("\x7b".data)
        ++ (ws3 ++ (("\x7d".data) ++ (ws4 ++ ((")".data) ++ v)))))) := matchLit_app _ _
  have d2 : (ws2 ++ (("\x7b".data)
      ++ (ws3 ++ (("\x7d".data) ++ (ws4 ++ ((")".data) ++ v)))))).dropWhile isSpaceChar
      = ("\x7b".data) ++ (ws3 ++ (("\x7d".data) ++ (ws4 ++ ((")".data) ++ v)))) := by
    refine dropWhileApp _ ws2 _ h2 ?_
    intro c hc
    simp only [List.cons_append, List.nil_append, List.head?_cons, Option.some.injEq] at hc
    rw [← hc]
    decide
  have e3 : matchLit ("\x7b".data) (("\x7b".data)
      ++ (ws3 ++ (("\x7d".data) ++ (ws4 ++ ((")".data) ++ v)))))
      = some (ws3 ++ (("\x7d".data) ++ (ws4 ++ ((")".data) ++ v)))) := matchLit_app _ _
  have d3 : (ws3 ++ (("\x7d".data) ++ (ws4 ++ ((")".data) ++ v)))).dropWhile isSpaceChar
      = ("\x7d".data) ++ (ws4 ++ ((")".data) ++ v)) := by
    refine dropWhileApp _ ws3 _ h3 ?_
    intro c hc
    simp only [List.cons_append, List.nil_append, List.head?_cons, Option.some.injEq] at hc
    rw [← hc]
    decide
  have e4 : matchLit ("\x7d".data) (("\x7d".data) ++ (ws4 ++ ((")".data) ++ v)))
      = some (ws4 ++ ((")".data) ++ v)) := matchLit_app _ _
  have d4 : (ws4 ++ ((")".data) ++ v)).dropWhile isSpaceChar = (")".data) ++ v := by
    refine dropWhileApp _ ws4 _ h4 ?_
    intro c hc
    simp only [List.cons_append, List.nil_append, List.head?_cons, Option.some.injEq] at hc
    rw [← hc]
    decide
  have e5 : matchLit (")".data) ((")".data) ++ v) = some v := matchLit_app _ _
  have hlen : ((emptyObjShape ws1 ws2 ws3 ws4) ++ v).length - v.length
      = (emptyObjShape ws1 ws2 ws3 ws4).length := by
    simp [List.length_append]
  rw [hs] at hlen ⊢
  unfold emptyObjMatcher
  simp only [e1, d1, e2, d2, e3, d3, e4, d4, e5, hlen]

-- The `!IDENT` pattern cannot start at a word character, so a run of word
-- characters is copied verbatim.
theorem bang_skip_words (ident : List Char) :
    ∀ (u r : List Char), (∀ ch ∈ u, isWordChar ch = true) →
      reSub (bangMatcher ident) (u ++ r) = u ++ reSub (bangMatcher ident) r := by
  intro u
  induction u with
  | nil => intro r _; rfl
  | cons a t ih =>
    intro r hu
    have ha : isWordChar a = true := hu a (by simp)
    have hnone : bangMatcher ident none (a :: (t ++ r)) = none := by
      unfold bangMatcher
      simp [hasPre, word_beq_false '!' a (by decide) ha]
    have hstep : reSub (bangMatcher ident) ((a :: t) ++ r)
        = a :: reSub (bangMatcher ident) (t ++ r) := by
      rw [List.cons_append]
      exact reSub_skip _ a (t ++ r) hnone (fun p => rfl)
    rw [hstep, ih r (fun c hc => hu c (by simp [hc]))]
    rfl

-- Rule-level facts.  Positive case of the `!IDENT\b` rules: a whole-word
-- occurrence at the scan position is rewritten and the scan continues behind
-- it.
theorem bang_pos (ident v : List Char)
    (hv : ∀ c, v.head? = some c → isWordChar c = false) :
    fixBang ident (('!' :: ident) ++ v) = (ident ++ (" == null".data)) ++ fixBang ident v := by
  show reSub (bangMatcher ident) (('!' :: ident) ++ v) = _
  exact reSub_leading _ ('!' :: ident) _ v (by simp)
    (by simpa using bangMatcher_leading ident v hv) (fun p => rfl)

-- Negative case: when the identifier is a proper initial segment of a longer
-- word, the trailing `\b` fails and nothing at this occurrence is rewritten.
theorem bang_neg (ident : List Char) (c : Char) (v : List Char)
    (hident : ∀ ch ∈ ident, isWordChar ch = true) (hc : isWordChar c = true) :
    fixBang ident (('!' :: ident) ++ (c :: v)) = ('!' :: ident) ++ (c :: fixBang ident v) := by
  have h0 : bangMatcher ident none (('!' :: ident) ++ (c :: v)) = none := by
    unfold bangMatcher
    have hdrop : ((('!' :: ident) ++ (c :: v)).drop (ident.length + 1)) = c :: v := by
      simpa using dropLenApp ('!' :: ident) (c :: v)
    simp [hasPre_app, hdrop, hc]
  have h1 : reSub (bangMatcher ident) (('!' :: ident) ++ (c :: v))
      = '!' :: reSub (bangMatcher ident) (ident ++ (c :: v)) := by
    rw [List.cons_append]
    exact reSub_skip _ '!' (ident ++ (c :: v)) (by simpa using h0) (fun p => rfl)
  have h2 : reSub (bangMatcher ident) (ident ++ (c :: v))
      = ident ++ reSub (bangMatcher ident) (c :: v) :=
    bang_skip_words ident ident (c :: v) hident
  have h3 : reSub (bangMatcher ident) (c :: v) = c :: reSub (bangMatcher ident) v := by
    have hcnone : bangMatcher ident none (c :: v) = none := by
      unfold bangMatcher
      simp [hasPre, word_beq_false '!' c (by decide) hc]
    exact reSub_skip _ c v hcnone (fun p => rfl)
  show reSub (bangMatcher ident) (('!' :: ident) ++ (c :: v)) = _
  rw [h1, h2, h3]
  simp [fixBang]

theorem app_ne_nil_left (u w : List Char) (hu : u ≠ []) : u ++ w ≠ [] := by
  intro h
  exact hu (List.append_eq_nil.mp h).1

theorem app_ne_nil_right (u w : List Char) (hw : w ≠ []) : u ++ w ≠ [] := by
  intro h
  exact hw (List.append_eq_nil.mp h).2

-- `fix_file` raises the read error unchanged: nothing has been written yet.
theorem fix_file_read_error (fs : FS) (p e : String) (h : fs.disk p = Except.error e) :
    fix_file fs p = Except.error e := by
  unfold fix_file
  rw [h]

-- `fix_file` on text the rules leave unchanged: no write, no message.
theorem fix_file_unchanged (fs : FS) (p : String) (c : List Char)
    (h : fs.disk p = Except.ok c) (hfix : fixRules c = c) :
    fix_file fs p = Except.ok (fs, []) := by
  unfold fix_file
  rw [h]
  simp [hfix]

-- The main loop processes a list of paths segment by segment.
theorem mainLoop_append (pre : List String) : ∀ (fs : FS) (post : List String),
    mainLoop fs (pre ++ post)
      = ((mainLoop (mainLoop fs pre).1 post).1,
          (mainLoop fs pre).2 ++ (mainLoop (mainLoop fs pre).1 post).2) := by
  induction pre with
  | nil => intro fs post; simp [mainLoop]
  | cons p t ih =>
    intro fs post
    show mainLoop fs (p :: (t ++ post)) = _
    cases hf : fix_file fs p with
    | ok r =>
      obtain ⟨fs', msgs⟩ := r
      simp only [mainLoop, hf, ih fs' post, List.append_assoc]
    | error e =>
      simp only [mainLoop, hf, ih fs post, List.append_assoc, List.cons_append]

-- A path whose read fails is reported in place and the rest of the list is
-- processed against the unchanged file system.
theorem mainLoop_error_cons (fs : FS) (p e : String) (rest : List String)
    (h : fs.disk p = Except.error e) :
    mainLoop fs (p :: rest) = ((mainLoop fs rest).1, errLine p e :: (mainLoop fs rest).2) := by
  have hf := fix_file_read_error fs p e h
  simp only [mainLoop, hf]

/-- Claim C1 fails on the code: the ordered Rule Set is not idempotent on every
input containing the targeted idioms.  On `!!text` the first pass rewrites the
inner `!text` giving `!text == null`, which contains a fresh `!text` that the
second pass rewrites again. -/
theorem C1_counterexample :
    fixRules ("!!text".data) ≠ ("!!text".data)
    ∧ fixRules (fixRules ("!!text".data)) ≠ fixRules ("!!text".data) := by
  constructor
  · decide
  · decide

/-- Claim C1, amended: applying the full ordered Rule Set twice yields the same
text as applying it once on each of the spec's literal sample inputs (a file in
"fixed" form for these samples is unchanged by a second pass); idempotence does
not hold for arbitrary inputs containing the targeted idioms. -/
theorem C1_samples_idempotent :
    fixRules (fixRules ("const v = headers[name] || defaultVal;".data))
        = fixRules ("const v = headers[name] || defaultVal;".data)
    ∧ fixRules (fixRules ("if (!options) \x7b return; \x7d".data))
        = fixRules ("if (!options) \x7b return; \x7d".data)
    ∧ fixRules (fixRules ("if (\x7b\x7d) \x7b doThing(); \x7d".data))
        = fixRules ("if (\x7b\x7d) \x7b doThing(); \x7d".data)
    ∧ fixRules (fixRules ("console.log(\"hi\");".data))
        = fixRules ("console.log(\"hi\");".data)
    ∧ fixRules (fixRules ("var unusedCounter = 0;".data))
        = fixRules ("var unusedCounter = 0;".data) := by
  refine ⟨by decide, by decide, by decide, by decide, by decide⟩

/-- Claim C2: both indexed-lookup fallback rules rewrite to the literal token
`name`: an identifier (maximal word run) followed by `[name] ||` becomes that
identifier followed by `[name] ??`, and an identifier followed by `[value] ||`
also becomes that identifier followed by `[name] ??`; the literal case
`const v = headers[name] || defaultVal;` yields
`const v = headers[name] ?? defaultVal;` under the full pipeline. -/
theorem C2_bracket_rules :
    (∀ (w v : List Char), w ≠ [] → (∀ c ∈ w, isWordChar c = true) →
      fix1 ((w ++ ("[name] ||".data)) ++ v) = (w ++ ("[name] ??".data)) ++ fix1 v
        ∧ fix2 ((w ++ ("[value] ||".data)) ++ v) = (w ++ ("[name] ??".data)) ++ fix2 v)
    ∧ fixRules ("const v = headers[name] || defaultVal;".data)
        = ("const v = headers[name] ?? defaultVal;".data) := by
  constructor
  · intro w v hw hword
    constructor
    · show reSub (bracketMatcher ("name".data) ("name".data)) _ = _
      exact reSub_leading _ (w ++ ("[name] ||".data)) _ v (app_ne_nil_left w _ hw)
        (bracketMatcher_leading ("name".data) ("name".data) w v hw hword) (fun p => rfl)
    · show reSub (bracketMatcher ("value".data) ("name".data)) _ = _
      exact reSub_leading _ (w ++ ("[value] ||".data)) _ v (app_ne_nil_left w _ hw)
        (bracketMatcher_leading ("value".data) ("name".data) w v hw hword) (fun p => rfl)
  · decide

/-- Closed instance of C2 at the identifier `headers`. -/
theorem C2_bracket_rules_witness :
    fix1 ((("headers".data) ++ ("[name] ||".data)) ++ [])
        = (("headers".data) ++ ("[name] ??".data)) ++ fix1 []
      ∧ fix2 ((("headers".data) ++ ("[value] ||".data)) ++ [])
        = (("headers".data) ++ ("[name] ??".data)) ++ fix2 [] :=
  C2_bracket_rules.1 ("headers".data) [] (by decide) (by decide)

/-- Claim C3: for each of the six fixed identifiers `text`, `result`,
`response`, `jsonData`, `instance`, `options`, a whole-word occurrence of
`!identifier` (the next character, if any, is not a word character) is
rewritten to `identifier == null`, while an occurrence where the identifier is
a proper initial segment of a longer word (the next character is a word
character, as in `!textual`) is left untouched; the literal case
`if (!options) { return; }` yields `if (options == null) { return; }` under
the full pipeline. -/
theorem C3_bang_rules :
    (∀ ident, ident ∈ [("text".data), ("result".data), ("response".data),
        ("jsonData".data), ("instance".data), ("options".data)] →
      (∀ v, (∀ c, v.head? = some c → isWordChar c = false) →
        fixBang ident (('!' :: ident) ++ v)
          = (ident ++ (" == null".data)) ++ fixBang ident v)
      ∧ (∀ (c : Char) (v : List Char), isWordChar c = true →
        fixBang ident (('!' :: ident) ++ (c :: v))
          = ('!' :: ident) ++ (c :: fixBang ident v)))
    ∧ fixRules ("if (!options) \x7b return; \x7d".data)
        = ("if (options == null) \x7b return; \x7d".data) := by
  constructor
  · intro ident hmem
    have hword : ∀ ch ∈ ident, isWordChar ch = true := by
      simp only [List.mem_cons, List.not_mem_nil, or_false] at hmem
      rcases hmem with rfl | rfl | rfl | rfl | rfl | rfl <;> decide
    exact ⟨fun v hv => bang_pos ident v hv, fun c v hc => bang_neg ident c v hword hc⟩
  · decide

/-- Closed instance of C3 at the identifier `text`, with both the rewritten
whole-word occurrence and the untouched longer-word occurrence. -/
theorem C3_bang_rules_witness :
    fixBang ("text".data) (('!' :: ("text".data)) ++ (')' :: []))
        = (("text".data) ++ (" == null".data)) ++ fixBang ("text".data) (')' :: [])
      ∧ fixBang ("text".data) (('!' :: ("text".data)) ++ ('u' :: []))
        = ('!' :: ("text".data)) ++ ('u' :: fixBang ("text".data) []) := by
  constructor
  · exact (C3_bang_rules.1 ("text".data) (by decide)).1 (')' :: [])
      (by
        intro c hc
        simp only [List.head?_cons, Option.some.injEq] at hc
        rw [← hc]
        decide)
  · exact (C3_bang_rules.1 ("text".data) (by decide)).2 'u' [] (by decide)

/-- Claim C4: a text in which no rule's pattern matches is returned exactly as
it came in, and when the transformed text equals the original, `fix_file`
performs no write (the file system is unchanged) and prints no message. -/
theorem C4_no_match_identity :
    (∀ s : List Char, noRuleMatch s → fixRules s = s)
    ∧ (∀ (fs : FS) (p : String) (c : List Char),
        fs.disk p = Except.ok c → fixRules c = c → mainLoop fs [p] = (fs, [])) := by
  constructor
  · intro s h
    obtain ⟨h1, h2, h3, h4, h5, h6, h7, h8, h9, h10, h11⟩ := h
    unfold fixRules fix1 fix2 fixBang fixEmptyObj fixConsole fixUnused
    rw [reSub_id_of_noMatch _ s h1, reSub_id_of_noMatch _ s h2, reSub_id_of_noMatch _ s h3,
      reSub_id_of_noMatch _ s h4, reSub_id_of_noMatch _ s h5, reSub_id_of_noMatch _ s h6,
      reSub_id_of_noMatch _ s h7, reSub_id_of_noMatch _ s h8, reSub_id_of_noMatch _ s h9,
      reSub_id_of_noMatch _ s h10, reSub_id_of_noMatch _ s h11]
  · intro fs p c hdisk hfix
    have hff : fix_file fs p = Except.ok (fs, []) := fix_file_unchanged fs p c hdisk hfix
    simp [mainLoop, hff]

/-- Closed instance of C4: `hello world` matches no rule, is returned
unchanged, and running the script on a file holding pattern-free text leaves
the file system unchanged and prints nothing. -/
theorem C4_no_match_identity_witness :
    fixRules ("hello world".data) = ("hello world".data)
    ∧ mainLoop fsC ["clean.js"] = (fsC, []) := by
  constructor
  · exact C4_no_match_identity.1 ("hello world".data)
      ⟨by decide, by decide, by decide, by decide, by decide, by decide, by decide,
       by decide, by decide, by decide, by decide⟩
  · exact C4_no_match_identity.2 fsC "clean.js" ("hello".data) rfl (by decide)

/-- Claim C5: the main loop processes the argument list segment by segment, so
a failure on one file never aborts the run; a path whose read raises an error
produces exactly one report line carrying that path and the error message, and
the remaining paths are processed against the unchanged file system. -/
theorem C5_error_containment :
    (∀ (pre : List String) (fs : FS) (post : List String),
      mainLoop fs (pre ++ post)
        = ((mainLoop (mainLoop fs pre).1 post).1,
            (mainLoop fs pre).2 ++ (mainLoop (mainLoop fs pre).1 post).2))
    ∧ (∀ (fs : FS) (p e : String) (rest : List String), fs.disk p = Except.error e →
        mainLoop fs (p :: rest)
          = ((mainLoop fs rest).1, errLine p e :: (mainLoop fs rest).2)) :=
  ⟨mainLoop_append, mainLoop_error_cons⟩

/-- Closed instance of C5: a missing file is reported in place and the
remaining file is still processed. -/
theorem C5_error_containment_witness :
    mainLoop fsC ["gone.js", "clean.js"]
      = ((mainLoop fsC ["clean.js"]).1,
          errLine "gone.js" "ENOENT" :: (mainLoop fsC ["clean.js"]).2) :=
  C5_error_containment.2 fsC "gone.js" "ENOENT" ["clean.js"] rfl

/-- Claim C6 fails on the code: the pattern `\bunused(\w+)\b` requires at least
one word character after the stem, so the bare identifier `unused` — which
does begin with the literal substring `unused` at a whole-word boundary — is
left unchanged rather than rewritten to `_`. -/
theorem C6_counterexample :
    fixRules ("let unused = 1;".data) = ("let unused = 1;".data)
    ∧ ("let unused = 1;".data) ≠ ("let _ = 1;".data) := by
  constructor
  · decide
  · decide

/-- Claim C6, amended: every identifier consisting of `unused` followed by at
least one word character, at a whole-word boundary, is rewritten by deleting
the `unused` stem and inserting a leading underscore (the bare identifier
`unused` itself is not rewritten); `unusedCounter` anywhere in the text
becomes `_Counter`. -/
theorem C6_unused_rule :
    (∀ (w v : List Char), w ≠ [] → (∀ c ∈ w, isWordChar c = true) →
        (∀ c, v.head? = some c → isWordChar c = false) →
        fixUnused ((("unused".data) ++ w) ++ v) = ('_' :: w) ++ fixUnused v)
    ∧ fixRules ("var unusedCounter = 0;".data) = ("var _Counter = 0;".data) := by
  constructor
  · intro w v hw hword hv
    show reSub unusedMatcher _ = _
    exact reSub_leading _ (("unused".data) ++ w) _ v (app_ne_nil_left _ _ (by decide))
      (unusedMatcher_leading w v hw hword hv) (fun p => unusedMatcher_prev v hv p)
  · decide

/-- Closed instance of C6 at the identifier `unusedCounter`. -/
theorem C6_unused_rule_witness :
    fixUnused ((("unused".data) ++ ("Counter".data)) ++ (' ' :: []))
      = ('_' :: ("Counter".data)) ++ fixUnused (' ' :: []) :=
  C6_unused_rule.1 ("Counter".data) (' ' :: []) (by decide) (by decide)
    (by
      intro c hc
      simp only [List.head?_cons, Option.some.injEq] at hc
      rw [← hc]
      decide)

/-- Claim C7: an occurrence of `console.log(` at the scan position is rewritten
to `console.warn(` and the scan continues behind it; the literal case
`console.log("hi");` yields `console.warn("hi");` under the full pipeline. -/
theorem C7_console_rule :
    (∀ v : List Char, fixConsole (("console.log(".data) ++ v)
        = ("console.warn(".data) ++ fixConsole v)
    ∧ fixRules ("console.log(\"hi\");".data) = ("console.warn(\"hi\");".data) := by
  constructor
  · intro v
    show reSub consoleMatcher _ = _
    exact reSub_leading _ ("console.log(".data) _ v (by decide)
      (consoleMatcher_leading v) (fun p => rfl)
  · decide

/-- Claim C8: a conditional whose test is a literal empty-object expression,
with any runs of whitespace in the four positions the pattern accepts, is
rewritten to the literal `if (false)` while the following text is preserved;
the literal case `if ({}) { doThing(); }` yields `if (false) { doThing(); }`
under the full pipeline. -/
theorem C8_empty_object_rule :
    (∀ (ws1 ws2 ws3 ws4 v : List Char),
      (∀ c ∈ ws1, isSpaceChar c = true) → (∀ c ∈ ws2, isSpaceChar c = true) →
      (∀ c ∈ ws3, isSpaceChar c = true) → (∀ c ∈ ws4, isSpaceChar c = true) →
      fixEmptyObj ((emptyObjShape ws1 ws2 ws3 ws4) ++ v)
        = ("if (false)".data) ++ fixEmptyObj v)
    ∧ fixRules ("if (\x7b\x7d) \x7b doThing(); \x7d".data)
        = ("if (false) \x7b doThing(); \x7d".data) := by
  constructor
  · intro ws1 ws2 ws3 ws4 v h1 h2 h3 h4
    show reSub emptyObjMatcher _ = _
    exact reSub_leading _ (emptyObjShape ws1 ws2 ws3 ws4) _ v
      (app_ne_nil_right _ _ (by decide))
      (emptyObjMatcher_leading ws1 ws2 ws3 ws4 v h1 h2 h3 h4) (fun p => rfl)
  · decide

/-- Closed instance of C8 with a one-space run after `if`. -/
theorem C8_empty_object_rule_witness :
    fixEmptyObj ((emptyObjShape (' ' :: []) [] [] []) ++ (';' :: []))
      = ("if (false)".data) ++ fixEmptyObj (';' :: []) :=
  C8_empty_object_rule.1 (' ' :: []) [] [] [] (';' :: [])
    (by decide) (by decide) (by decide) (by decide)

/-- Claim C9: the Substitution Pipeline is a pure, deterministic function of
the input text — two runs on equal texts produce equal outputs — and the lines
the script prints for a path depend only on that path's read result and write
status, not on the file path's position, the rest of the file system, or any
other state. -/
theorem C9_purity :
    (∀ s t : List Char, s = t → fixRules s = fixRules t)
    ∧ (∀ (fs1 fs2 : FS) (p : String), fs1.disk p = fs2.disk p →
        fs1.writeErr p = fs2.writeErr p → reportOf fs1 p = reportOf fs2 p) := by
  constructor
  · intro s t h
    rw [h]
  · intro fs1 fs2 p hd hw
    unfold reportOf fix_file
    rw [hd, hw]
    cases h : fs2.disk p with
    | error e => rfl
    | ok content =>
      by_cases hc : fixRules content = content
      · simp [hc]
      · cases hwe : fs2.writeErr p with
        | none => simp [hc, hwe]
        | some e => simp [hc, hwe]

/-- Closed instance of C9: two file systems that agree on `clean.js` produce
the same report for it, although they differ elsewhere. -/
theorem C9_purity_witness : reportOf fsC "clean.js" = reportOf fsD "clean.js" :=
  C9_purity.2 fsC fsD "clean.js" rfl rfl

/-- Claim C10: when reading a path fails, `fix_file` raises the error without
touching the file system, so the file's on-disk content is unchanged (the
write is opened only after all rules have run); and when the rules leave the
content unchanged, no write is performed at all. -/
theorem C10_no_partial_write :
    (∀ (fs : FS) (p e : String), fs.disk p = Except.error e →
        mainLoop fs [p] = (fs, [errLine p e]))
    ∧ (∀ (fs : FS) (p : String) (c : List Char), fs.disk p = Except.ok c →
        fixRules c = c → fix_file fs p = Except.ok (fs, [])) := by
  constructor
  · intro fs p e h
    have hf := fix_file_read_error fs p e h
    simp [mainLoop, hf]
  · exact fix_file_unchanged

/-- Closed instance of C10: a missing file leaves the file system exactly as
it was, and an unchanged file is not rewritten. -/
theorem C10_no_partial_write_witness :
    mainLoop fsC ["gone2.js"] = (fsC, [errLine "gone2.js" "ENOENT"])
    ∧ fix_file fsC "clean.js" = Except.ok (fsC, []) :=
  ⟨C10_no_partial_write.1 fsC "gone2.js" "ENOENT" rfl,
   C10_no_partial_write.2 fsC "clean.js" ("hello".data) rfl (by decide)⟩
